import Mathlib

/-!
Shallow embedding of the vaska client-side request cache
(src/resource.js, src/constants.js and the utility module), together with
theorems checking the frozen claims about it.
-/

namespace Vaska

/-- JS values as they appear in query parameters, path parameters, headers,
cache entries and decoded response bodies.  Numbers are modelled as
naturals (enough for the data the claims exercise), objects as
insertion-ordered field lists, mirroring the order JSON.stringify walks the
fields of a plain object. -/
inductive JsVal where
  | null : JsVal
  | undef : JsVal
  | bool : Bool → JsVal
  | num : Nat → JsVal
  | str : String → JsVal
  | obj : List (String × JsVal) → JsVal

mutual

/-- Boolean structural equality of JS values (deep value equality). -/
def JsVal.beq : JsVal → JsVal → Bool
  | .null, .null => true
  | .undef, .undef => true
  | .bool a, .bool c => a == c
  | .num a, .num c => a == c
  | .str a, .str c => a == c
  | .obj a, .obj c => JsVal.beqFields a c
  | _, _ => false

/-- Boolean structural equality of object field lists. -/
def JsVal.beqFields : List (String × JsVal) → List (String × JsVal) → Bool
  | [], [] => true
  | (k, v) :: r, (k2, v2) :: r2 => k == k2 && JsVal.beq v v2 && JsVal.beqFields r r2
  | _, _ => false

end

/-- Truthiness of a JS value, as used by the conditional expressions in
Resource.get. -/
def jsTruthy : JsVal → Bool
  | .null => false
  | .undef => false
  | .bool b => b
  | .num n => n != 0
  | .str s => s != ""
  | .obj _ => true

mutual

/-- Model of JSON.stringify.  Returns none exactly where JSON.stringify
returns the undefined value (on the undefined input).  String escaping is
not modelled; the development only evaluates this on escape-free strings. -/
def jsonStringify : JsVal → Option String
  | .null => some "null"
  | .undef => none
  | .bool b => some (if b then "true" else "false")
  | .num n => some (toString n)
  | .str s => some ("\"" ++ s ++ "\"")
  | .obj fs => some ("\x7b" ++ String.intercalate "," (jsonStringifyFields fs) ++ "\x7d")

/-- Serialized fields of an object: fields whose value stringifies to the
undefined value are dropped, exactly as JSON.stringify drops them. -/
def jsonStringifyFields : List (String × JsVal) → List String
  | [] => []
  | (k, v) :: rest =>
    match jsonStringify v with
    | none => jsonStringifyFields rest
    | some s => ("\"" ++ k ++ "\":" ++ s) :: jsonStringifyFields rest

end

/-- JS string concatenation with a possibly undefined operand: the
expression key + JSON.stringify(elem) coerces an undefined operand to the
text undefined. -/
def jsStringifyConcat (v : JsVal) : String :=
  (jsonStringify v).getD "undefined"

/-- keyBuilder from the utility module: a lodash reduce over the fields of
the argument object, appending JSON.stringify of each field value to the
accumulator, starting from the fixed text CACHEKEY-. -/
def keyBuilderFields (fields : List (String × JsVal)) : String :=
  fields.foldl (fun key f => key ++ jsStringifyConcat f.2) "CACHEKEY-"

/-- keyBuilder as invoked from Resource.get: the argument object literal
has the fields query, params, header in that insertion order. -/
def keyBuilder (query params header : JsVal) : String :=
  keyBuilderFields [("query", query), ("params", params), ("header", header)]

/-- The lodash isUndefined test. -/
def jsIsUndefined : JsVal → Bool
  | .undef => true
  | _ => false

/-- The lodash isNull test. -/
def jsIsNull : JsVal → Bool
  | .null => true
  | _ => false

/-- isInvalidRequest from the utility module: a lodash reduce over the
values of params that is true when some value is undefined or null.  On a
non-object collection the reduce visits no undefined or null element and
returns the accumulator false. -/
def isInvalidRequest : JsVal → Bool
  | .obj fields => fields.any (fun f => jsIsUndefined f.2 || jsIsNull f.2)
  | _ => false

/-- Futures (bluebird promises) are modelled symbolically: already settled
(resolved or rejected with a value), or still in flight, identified by the
sequence number of the network call that will settle it.  Two in-flight
futures are the same JS promise object exactly when their identifiers
coincide. -/
inductive Future where
  | resolved : JsVal → Future
  | rejected : JsVal → Future
  | pending : Nat → Future

/-- DataStatus from src/constants.js. -/
inductive DataStatus where
  | EMPTY | FRESH | STALE | PENDING_PUT | PENDING_POST | PENDING_DELETE | ERROR
deriving DecidableEq, Repr

/-- A cache entry: an immutable Map whose four possible keys are modelled
as optional fields, none standing for an absent key (reading an absent key
yields the undefined value). -/
structure CacheEntry where
  dataVal : Option JsVal
  timestamp : Option Nat
  success : Option Bool
  pendingGet : Option Future

/-- Reading the data key of an entry: absent keys read as undefined. -/
def entryData (e : CacheEntry) : JsVal :=
  e.dataVal.getD JsVal.undef

/-- Lookup in an association list (an immutable Map keyed by kappa). -/
def alistGet {κ α : Type} [DecidableEq κ] : List (κ × α) → κ → Option α
  | [], _ => none
  | kv :: rest, k => if kv.1 = k then some kv.2 else alistGet rest k

/-- Map.set: replace the value under an existing key, or add the pair. -/
def alistSet {κ α : Type} [DecidableEq κ] (l : List (κ × α)) (k : κ) (a : α) :
    List (κ × α) :=
  if (alistGet l k).isSome then
    l.map (fun kv => if kv.1 = k then (kv.1, a) else kv)
  else
    l ++ [(k, a)]

/-- Update the value under a key in place, leaving the list unchanged when
the key is absent. -/
def alistModify {κ α : Type} [DecidableEq κ] (l : List (κ × α)) (k : κ) (f : α → α) :
    List (κ × α) :=
  l.map (fun kv => if kv.1 = k then (kv.1, f kv.2) else kv)

/-- Map.map over the values of an immutable Map. -/
def alistMapVals {κ α : Type} (f : α → α) (l : List (κ × α)) : List (κ × α) :=
  l.map (fun kv => (kv.1, f kv.2))

/-- Map.remove. -/
def alistRemove {κ α : Type} [DecidableEq κ] (l : List (κ × α)) (k : κ) :
    List (κ × α) :=
  l.filter (fun kv => kv.1 ≠ k)

/-- A resource cache: immutable Map from cache key to cache entry. -/
def Cache := List (String × CacheEntry)

/-- State threaded through the GET path of one resource: the cache, the
next fresh network-call identifier, and the ordered log of network calls
issued so far (one entry per request put on the wire). -/
structure FetchState where
  cache : List (String × CacheEntry)
  nextId : Nat
  fetches : List Nat

/-- The comparison now - entry.timestamp < timeUntilStale.  A Date minus an
absent timestamp is NaN in JS and every comparison with NaN is false, hence
the none branch. -/
def ageLt (now : Nat) (ts : Option Nat) (ttl : Nat) : Bool :=
  match ts with
  | some t => decide ((now : Int) - (t : Int) < (ttl : Int))
  | none => false

/-- The placeholder entry Resource.makeFetch installs synchronously before
the network call returns: only the keys pendingGet and data are present. -/
def placeholderEntry (fut : Future) (cur : JsVal) : CacheEntry :=
  { dataVal := some cur, timestamp := none, success := none, pendingGet := some fut }

/-- The entry the fetch completion callback stores on success. -/
def successEntry (body : JsVal) (t : Nat) : CacheEntry :=
  { dataVal := some body, timestamp := some t, success := some true, pendingGet := none }

/-- The entry the fetch completion callback stores on failure (browser
path): the normalized error under the data key, success false. -/
def failureEntry (err : JsVal) (t : Nat) : CacheEntry :=
  { dataVal := some err, timestamp := some t, success := some false, pendingGet := none }

/-- Resource.makeFetch, the part that runs synchronously before control
returns to the caller: issue the network call (recorded in the log under a
fresh identifier whose future is returned), then install the placeholder
entry carrying the data of any prior entry (or null). -/
def makeFetch (st : FetchState) (cacheKey : String) : Future × FetchState :=
  let pendingGet := Future.pending st.nextId
  let currentValue : JsVal :=
    match alistGet st.cache cacheKey with
    | some e => entryData e
    | none => .null
  (pendingGet,
    { cache := alistSet st.cache cacheKey (placeholderEntry pendingGet currentValue),
      nextId := st.nextId + 1,
      fetches := st.fetches ++ [st.nextId] })

/-- The completion callback of a successful GET at time t with decoded
body: the entry is replaced wholesale. -/
def completeFetchSuccess (st : FetchState) (cacheKey : String) (body : JsVal)
    (t : Nat) : FetchState :=
  { st with cache := alistSet st.cache cacheKey (successEntry body t) }

/-- The completion callback of a failed GET at time t (browser path): the
entry is removed and replaced wholesale by a failed entry holding the
normalized error. -/
def completeFetchFailure (st : FetchState) (cacheKey : String) (err : JsVal)
    (t : Nat) : FetchState :=
  { st with cache := alistSet (alistRemove st.cache cacheKey) cacheKey (failureEntry err t) }

/-- Mutation network call (makePut, makePost, makeDelete): issued
unconditionally, no cache interaction; only the fresh future and the call
log matter to the claims. -/
def makeMutationCall (st : FetchState) : Future × FetchState :=
  (Future.pending st.nextId,
    { st with nextId := st.nextId + 1, fetches := st.fetches ++ [st.nextId] })

/-- Configuration of one registered resource: the fields of Resource that
the GET path reads. -/
structure ResourceCfg where
  model : JsVal
  timeUntilStale : Nat
  authRequired : Bool

/-- The arguments Resource.get receives (method already lowercased by
ExternalAPI.queryResource). -/
structure GetArgs where
  method : String
  params : JsVal
  query : JsVal
  header : JsVal
  forceRefresh : Bool
  auth : Bool

/-- The Payload fields observable by a caller: status, data, error and the
future (the promise attribute).  The error field is the undefined value
when the constructor was not given an error. -/
structure Payload where
  status : DataStatus
  data : JsVal
  error : JsVal
  promise : Future

/-- Resource.get.  Throws (Except.error) on an unsupported method; every
other outcome is a Payload together with the updated fetch state.  The
branch structure follows the source line by line: method check, mandatory
authentication check, cache key construction, invalid-request check, then
the GET cache state machine or the mutation dispatch. -/
def resourceGet (cfg : ResourceCfg) (a : GetArgs) (now : Nat) (st : FetchState) :
    Except String (Payload × FetchState) :=
  if ¬ (a.method = "get" ∨ a.method = "post" ∨ a.method = "put" ∨ a.method = "delete") then
    .error "Method must be one of get, post, put, delete"
  else if !a.auth && cfg.authRequired then
    .ok ({ status := .ERROR, data := cfg.model, error := .undef,
           promise := .resolved cfg.model }, st)
  else
    let cacheKey := keyBuilder a.query a.params a.header
    if isInvalidRequest a.params then
      .ok ({ status := .ERROR, data := cfg.model, error := .undef,
             promise := .resolved cfg.model }, st)
    else if a.method = "get" then
      match alistGet st.cache cacheKey with
      | some entry =>
        if entry.pendingGet.isSome && (entry.success == some true) then
          let status := if jsTruthy (entryData entry) then DataStatus.STALE else DataStatus.EMPTY
          let pdata := if status == DataStatus.EMPTY then cfg.model else entryData entry
          -- the getD default is unreachable: the branch guard has pendingGet present
          .ok ({ status := status, data := pdata, error := .undef,
                 promise := entry.pendingGet.getD (.resolved .undef) }, st)
        else if !(entry.success == some true) then
          let pr : Future × FetchState :=
            if ageLt now entry.timestamp cfg.timeUntilStale then
              (.rejected (entryData entry), st)
            else makeFetch st cacheKey
          .ok ({ status := .ERROR, data := cfg.model, error := entryData entry,
                 promise := pr.1 }, pr.2)
        else if ageLt now entry.timestamp cfg.timeUntilStale && !a.forceRefresh then
          .ok ({ status := .FRESH, data := entryData entry, error := .undef,
                 promise := .resolved (entryData entry) }, st)
        else
          let pr := makeFetch st cacheKey
          .ok ({ status := .STALE, data := entryData entry, error := .undef,
                 promise := pr.1 }, pr.2)
      | none =>
        let pr := makeFetch st cacheKey
        .ok ({ status := .EMPTY, data := cfg.model, error := .undef,
               promise := pr.1 }, pr.2)
    else
      let pr := makeMutationCall st
      let status := if a.method = "put" then DataStatus.PENDING_PUT
                    else if a.method = "post" then DataStatus.PENDING_POST
                    else DataStatus.PENDING_DELETE
      .ok ({ status := status, data := .null, error := .undef, promise := pr.1 }, pr.2)

/-- Stamp the timestamp key of an entry to the epoch (setIn of 0). -/
def stampEntry (e : CacheEntry) : CacheEntry :=
  { e with timestamp := some 0 }

/-- The per-entry body of Resource.invalidateCache: entries that carry a
timestamp are stamped to the epoch, entries without one are returned
unchanged. -/
def stampIfTimestamped (e : CacheEntry) : CacheEntry :=
  if e.timestamp.isSome then stampEntry e else e

/-- Resource.invalidateCache: map every entry of the cache through the
conditional stamp. -/
def invalidateCache (c : List (String × CacheEntry)) : List (String × CacheEntry) :=
  alistMapVals stampIfTimestamped c

/-- Resource.invalidateCacheKey: when the key is present, setIn the
timestamp of that entry to 0; otherwise do nothing. -/
def invalidateCacheKey (c : List (String × CacheEntry)) (k : String) :
    List (String × CacheEntry) :=
  if (alistGet c k).isSome then alistModify c k stampEntry else c

/-- One registered resource: its configuration together with its owned
cache. -/
structure ResourceState where
  cfg : ResourceCfg
  cache : List (String × CacheEntry)

/-- Notifications emitted on the change channel of the ExternalAPI event
emitter: the bulk invalidation on an authentication change emits with no
argument, fetch completions emit a payload or an error. -/
inductive ChangeEvent where
  | noArg : ChangeEvent
  | withPayload : JsVal → ChangeEvent
  | withError : JsVal → ChangeEvent

/-- The state of one ExternalAPI object: the resource pool keyed by
resource id, the shared authentication header (an object given by its
fields), plus the network-call counter, call log and emitted events. -/
structure ApiState where
  pool : List (String × ResourceState)
  authHeader : List (String × JsVal)
  nextId : Nat
  calls : List Nat
  events : List ChangeEvent

/-- ExternalAPI.isAuthenticated: the authentication header object is not
empty. -/
def isAuthenticated (api : ApiState) : Bool :=
  !api.authHeader.isEmpty

/-- ExternalAPI.setAuthHeader: store the header, run invalidateCache on
every registered resource, emit one change notification with no payload. -/
def setAuthHeader (api : ApiState) (h : List (String × JsVal)) : ApiState :=
  { api with
    authHeader := h,
    pool := alistMapVals (fun rs => { rs with cache := invalidateCache rs.cache }) api.pool,
    events := api.events ++ [ChangeEvent.noArg] }

/-- ExternalAPI.unsetAuthHeader: clear the header, run invalidateCache on
every registered resource, emit one change notification with no payload. -/
def unsetAuthHeader (api : ApiState) : ApiState :=
  { api with
    authHeader := [],
    pool := alistMapVals (fun rs => { rs with cache := invalidateCache rs.cache }) api.pool,
    events := api.events ++ [ChangeEvent.noArg] }

/-- Model of String.prototype.toLowerCase restricted to the ASCII method
names queryResource receives. -/
def jsToLowerCase (s : String) : String :=
  String.mk (s.data.map Char.toLower)

/-- The request object handed to ExternalAPI.queryResource (the id is
passed separately, customHookData is inert for the claims). -/
structure QueryReq where
  method : String
  params : JsVal
  query : JsVal
  header : JsVal
  forceRefresh : Bool

/-- ExternalAPI.queryResource: an unregistered id throws; otherwise
Resource.get runs inside a try block whose catch only logs, so an
exception from Resource.get makes the call return null (modelled as none)
with the state untouched. -/
def queryResource (api : ApiState) (id : String) (req : QueryReq) (now : Nat) :
    Except String (Option Payload × ApiState) :=
  match alistGet api.pool id with
  | none => .error "Resource was never initialized."
  | some rs =>
    match resourceGet rs.cfg
        { method := jsToLowerCase req.method, params := req.params, query := req.query,
          header := req.header, forceRefresh := req.forceRefresh,
          auth := isAuthenticated api } now
        { cache := rs.cache, nextId := api.nextId, fetches := api.calls } with
    | .error _ => .ok (none, api)
    | .ok (p, st) =>
      .ok (some p,
        { api with
          pool := alistModify api.pool id (fun r => { r with cache := st.cache }),
          nextId := st.nextId,
          calls := st.fetches })

/-- A descriptor handed to Payload.affectsResource: one JS object whose
fields include the resource id; keyBuilder is applied to the whole
descriptor object when the cascade fires. -/
structure Descriptor where
  fields : List (String × JsVal)

/-- The id field of a descriptor, used for the resource pool lookup when
the cascade fires (the pool is keyed by the string ids the claims use). -/
def descId (d : Descriptor) : Option String :=
  match alistGet d.fields "id" with
  | some (.str s) => some s
  | _ => none

/-- Immutable Set add: value equality, no duplicates, insertion order. -/
def setAdd {α : Type} [DecidableEq α] (l : List α) (a : α) : List α :=
  if a ∈ l then l else l ++ [a]

/-- Structural (deep value) equality of descriptors, the equality an
immutable Set uses for its members. -/
def descBeq (a b : Descriptor) : Bool :=
  JsVal.beqFields a.fields b.fields

/-- Immutable Set add for descriptor sets, using deep value equality. -/
def setAddDescriptor (l : List Descriptor) (d : Descriptor) : List Descriptor :=
  if l.any (fun x => descBeq x d) then l else l ++ [d]

/-- The cascade bookkeeping carried by one mutation Payload: the two
accumulated target sets and, per kind, how many completion listeners have
been registered on the future of the Payload. -/
structure CascadeState where
  affected : List Descriptor
  invalidated : List String
  affListeners : Nat
  invListeners : Nat

/-- The cascade state of a freshly constructed Payload. -/
def emptyCascade : CascadeState :=
  { affected := [], invalidated := [], affListeners := 0, invListeners := 0 }

/-- Payload.affectsResource: when the affected set is still empty a
completion listener is registered on the promise, then the descriptor is
added to the affected set. -/
def affectsResource (c : CascadeState) (d : Descriptor) : CascadeState :=
  let c := if c.affected.isEmpty then { c with affListeners := c.affListeners + 1 } else c
  { c with affected := setAddDescriptor c.affected d }

/-- Payload.invalidatesResource: when the invalidated set is still empty a
completion listener is registered on the promise, then the resource id is
added to the invalidated set. -/
def invalidatesResource (c : CascadeState) (rid : String) : CascadeState :=
  let c := if c.invalidated.isEmpty then { c with invListeners := c.invListeners + 1 } else c
  { c with invalidated := setAdd c.invalidated rid }

/-- One pass of the affectsResource listener: for every accumulated
descriptor, rebuild the cache key from the whole descriptor object and run
invalidateCacheKey on the resource found under the descriptor id. -/
def fireAffected (pool : List (String × ResourceState)) (ds : List Descriptor) :
    List (String × ResourceState) :=
  ds.foldl
    (fun p d =>
      match descId d with
      | some rid =>
        alistModify p rid
          (fun rs => { rs with cache := invalidateCacheKey rs.cache (keyBuilderFields d.fields) })
      | none => p)
    pool

/-- One pass of the invalidatesResource listener: run invalidateCache on
every resource named in the accumulated id set. -/
def fireInvalidated (pool : List (String × ResourceState)) (ids : List String) :
    List (String × ResourceState) :=
  ids.foldl
    (fun p rid => alistModify p rid (fun rs => { rs with cache := invalidateCache rs.cache }))
    pool

/-- What the registered listeners do to the resource pool when the
mutation future settles: nothing on rejection (every listener body is
guarded by then and the catch swallows); on resolution every registered
listener of each kind fires once, walking the accumulated set of its
kind. -/
def settleCascade (pool : List (String × ResourceState)) (c : CascadeState)
    (resolvedOk : Bool) : List (String × ResourceState) :=
  if resolvedOk then
    (fun p => fireInvalidated p c.invalidated)^[c.invListeners]
      ((fun p => fireAffected p c.affected)^[c.affListeners] pool)
  else pool

/-- The cache keys the affectsResource cascade rebuilds for the targets
naming a given resource id: keyBuilder applied to each whole descriptor
object. -/
def affectedKeysFor (ds : List Descriptor) (rid : String) : List String :=
  (ds.filter fun d => descId d = some rid).map fun d => keyBuilderFields d.fields

/-- One call in the sequence of cascade registrations performed on a single
mutation Payload. -/
inductive CascadeCall where
  | aff : Descriptor → CascadeCall
  | inv : String → CascadeCall

/-- Whether a call is an affectsResource call. -/
def isAffCall : CascadeCall → Bool
  | .aff _ => true
  | .inv _ => false

/-- Whether a call is an invalidatesResource call. -/
def isInvCall : CascadeCall → Bool
  | .aff _ => false
  | .inv _ => true

/-- Run a sequence of affectsResource and invalidatesResource calls on a
cascade state, left to right. -/
def applyCascadeCalls (c : CascadeState) : List CascadeCall → CascadeState
  | [] => c
  | .aff d :: rest => applyCascadeCalls (affectsResource c d) rest
  | .inv r :: rest => applyCascadeCalls (invalidatesResource c r) rest

/-! ### Concrete scenarios used by individual claims -/

/-- Claim C1 scenario: a resource with the default TTL and an empty model. -/
def c1cfg : ResourceCfg :=
  { model := .obj [], timeUntilStale := 60000, authRequired := false }

/-- Claim C1 scenario: a plain GET request for one user. -/
def c1args : GetArgs :=
  { method := "get", params := .obj [("username", .str "dase")], query := .undef,
    header := .obj [], forceRefresh := false, auth := true }

/-- Claim C1 scenario: the cache key of the request. -/
def c1key : String := keyBuilder c1args.query c1args.params c1args.header

/-- Claim C1 scenario: the initial state, nothing cached, no calls made. -/
def c1st0 : FetchState := { cache := [], nextId := 0, fetches := [] }

/-- Claim C1 scenario: the state after the first query: the placeholder is
installed and one network call is on the wire. -/
def c1st1 : FetchState :=
  { cache := [(c1key, placeholderEntry (.pending 0) .null)], nextId := 1, fetches := [0] }

/-- Claim C1 scenario: the state after the second query: the placeholder
was replaced and a second network call is on the wire. -/
def c1st2 : FetchState :=
  { cache := [(c1key, placeholderEntry (.pending 1) .null)], nextId := 2, fetches := [0, 1] }

/-- Claim C3 counterexample scenario: the resource of the README scenario
(endpoint template /users/:username, default TTL, empty model); the
template is never consulted by the validation, which is the point of the
counterexample. -/
def c3cfg : ResourceCfg :=
  { model := .obj [], timeUntilStale := 60000, authRequired := false }

/-- Claim C3 counterexample scenario: a GET query whose params object is
empty, so the required username parameter is omitted entirely. -/
def c3argsOmitted : GetArgs :=
  { method := "get", params := .obj [], query := .undef, header := .obj [],
    forceRefresh := false, auth := true }

/-- Claim C3 counterexample scenario: a GET query that passes no params
value at all (params is undefined). -/
def c3argsNoParams : GetArgs :=
  { method := "get", params := .undef, query := .undef, header := .obj [],
    forceRefresh := false, auth := true }

/-- Claim C5 scenario: resource configuration. -/
def c5cfg : ResourceCfg :=
  { model := .obj [], timeUntilStale := 60000, authRequired := false }

/-- Claim C5 scenario: the GET request. -/
def c5args : GetArgs :=
  { method := "get", params := .obj [("username", .str "dase")], query := .undef,
    header := .obj [], forceRefresh := false, auth := true }

/-- Claim C5 scenario: the cache key of the request. -/
def c5key : String := keyBuilder c5args.query c5args.params c5args.header

/-- Claim C5 scenario: the stored normalized error. -/
def c5err : JsVal := .obj [("status", .num 500)]

/-- Claim C5 scenario: the entry of a fetch that failed at time 0. -/
def c5st0 : FetchState :=
  { cache := [(c5key, failureEntry c5err 0)], nextId := 0, fetches := [] }

/-- Claim C5 scenario: state after the first expired-failure retry. -/
def c5st1 : FetchState :=
  { cache := [(c5key, placeholderEntry (.pending 0) c5err)], nextId := 1, fetches := [0] }

/-- Claim C5 scenario: state after the second query also started a fetch. -/
def c5st2 : FetchState :=
  { cache := [(c5key, placeholderEntry (.pending 1) c5err)], nextId := 2, fetches := [0, 1] }

/-- Claim C6 scenario: resource configuration. -/
def c6cfg : ResourceCfg :=
  { model := .obj [], timeUntilStale := 60000, authRequired := false }

/-- Claim C6 scenario: one resource whose only entry is a pending
placeholder (it carries no timestamp). -/
def c6pool : List (String × ResourceState) :=
  [("R", { cfg := c6cfg, cache := [("k", placeholderEntry (.pending 0) .null)] })]

/-- Claim C6 scenario: a cascade that declares the whole resource R as an
invalidatesResource target. -/
def c6casc : CascadeState := invalidatesResource emptyCascade "R"

/-- Claim C7 scenario: a cascade built by one affectsResource call followed
by one invalidatesResource call on the same Payload. -/
def c7casc : CascadeState :=
  invalidatesResource (affectsResource emptyCascade ⟨[("id", .str "R")]⟩) "S"

/-- Claim C8 scenario: one registered resource whose only entry is a
pending placeholder (it carries no timestamp). -/
def c8api : ApiState :=
  { pool := [("R", { cfg := { model := .obj [], timeUntilStale := 60000, authRequired := false },
                     cache := [("k", placeholderEntry (.pending 0) .null)] })],
    authHeader := [], nextId := 0, calls := [], events := [] }

/-- Claim C9 scenario: an API with one registered resource. -/
def c9api : ApiState :=
  { pool := [("USER", { cfg := { model := .obj [], timeUntilStale := 60000, authRequired := false },
                        cache := [] })],
    authHeader := [], nextId := 0, calls := [], events := [] }

/-- Claim C9 scenario: a request using an unsupported verb. -/
def c9req : QueryReq :=
  { method := "PATCH", params := .obj [("username", .str "dase")], query := .undef,
    header := .obj [], forceRefresh := false }

/-- Claim C10 scenario: an API with one registered resource that requires
authentication, and no authentication header set. -/
def c10api : ApiState :=
  { pool := [("SECURE", { cfg := { model := .obj [], timeUntilStale := 60000, authRequired := true },
                          cache := [] })],
    authHeader := [], nextId := 0, calls := [], events := [] }

/-- Claim C10 scenario: a request using an unsupported verb. -/
def c10req : QueryReq :=
  { method := "patch", params := .obj [("username", .str "dase")], query := .undef,
    header := .obj [], forceRefresh := false }

/-- Claim C6 witness scenario: resource A, one successful entry. -/
def c6wrsA : ResourceState :=
  { cfg := c6cfg, cache := [("ka", successEntry (.num 1) 50)] }

/-- Claim C6 witness scenario: resource B, one successful entry. -/
def c6wrsB : ResourceState :=
  { cfg := c6cfg, cache := [("kb", successEntry (.num 2) 60)] }

/-- Claim C6 witness scenario: an affectsResource descriptor naming
resource A. -/
def c6wdesc : Descriptor :=
  ⟨[("id", .str "A"), ("query", .obj []), ("params", .obj []), ("header", .obj [])]⟩

/-- Claim C6 witness scenario: a pool with the two resources. -/
def c6wpool : List (String × ResourceState) := [("A", c6wrsA), ("B", c6wrsB)]

/-- Claim C6 witness scenario: a cascade targeting entry of A and all of
B, with one registered listener per kind. -/
def c6wcasc : CascadeState :=
  { affected := [c6wdesc], invalidated := ["B"], affListeners := 1, invListeners := 1 }

/-- Claim C8 witness scenario: an API with one resource holding one
successful entry, fetched at time 500. -/
def c8wapi : ApiState :=
  { pool := [("USER",
      { cfg := { model := .obj [], timeUntilStale := 60000, authRequired := false },
        cache := [(keyBuilder .undef (.obj [("username", .str "dase")]) (.obj []),
                   successEntry (.obj [("name", .str "Peter")]) 500)] })],
    authHeader := [], nextId := 0, calls := [], events := [] }

/-! ### Pointwise description lemmas for the map operations -/

mutual

theorem JsVal.beq_refl : ∀ a : JsVal, JsVal.beq a a = true
  | .null => rfl
  | .undef => rfl
  | .bool a => by simp [JsVal.beq]
  | .num a => by simp [JsVal.beq]
  | .str a => by simp [JsVal.beq]
  | .obj a => by simpa [JsVal.beq] using JsVal.beqFields_refl a

theorem JsVal.beqFields_refl : ∀ a : List (String × JsVal), JsVal.beqFields a a = true
  | [] => rfl
  | (k, v) :: r => by
      simp [JsVal.beqFields, JsVal.beq_refl v, JsVal.beqFields_refl r]

end

mutual

theorem JsVal.eq_of_beq : ∀ a b : JsVal, JsVal.beq a b = true → a = b
  | .null, .null, _ => rfl
  | .undef, .undef, _ => rfl
  | .bool a, .bool c, h => by simp [JsVal.beq] at h; simp [h]
  | .num a, .num c, h => by simp [JsVal.beq] at h; simp [h]
  | .str a, .str c, h => by simp [JsVal.beq] at h; simp [h]
  | .obj a, .obj c, h => by
      have := JsVal.eqFields_of_beqFields a c (by simpa [JsVal.beq] using h)
      simp [this]
  | .null, .undef, h => nomatch h
  | .null, .bool _, h => nomatch h
  | .null, .num _, h => nomatch h
  | .null, .str _, h => nomatch h
  | .null, .obj _, h => nomatch h
  | .undef, .null, h => nomatch h
  | .undef, .bool _, h => nomatch h
  | .undef, .num _, h => nomatch h
  | .undef, .str _, h => nomatch h
  | .undef, .obj _, h => nomatch h
  | .bool _, .null, h => nomatch h
  | .bool _, .undef, h => nomatch h
  | .bool _, .num _, h => nomatch h
  | .bool _, .str _, h => nomatch h
  | .bool _, .obj _, h => nomatch h
  | .num _, .null, h => nomatch h
  | .num _, .undef, h => nomatch h
  | .num _, .bool _, h => nomatch h
  | .num _, .str _, h => nomatch h
  | .num _, .obj _, h => nomatch h
  | .str _, .null, h => nomatch h
  | .str _, .undef, h => nomatch h
  | .str _, .bool _, h => nomatch h
  | .str _, .num _, h => nomatch h
  | .str _, .obj _, h => nomatch h
  | .obj _, .null, h => nomatch h
  | .obj _, .undef, h => nomatch h
  | .obj _, .bool _, h => nomatch h
  | .obj _, .num _, h => nomatch h
  | .obj _, .str _, h => nomatch h

theorem JsVal.eqFields_of_beqFields :
    ∀ a b : List (String × JsVal), JsVal.beqFields a b = true → a = b
  | [], [], _ => rfl
  | (k, v) :: r, (k2, v2) :: r2, h => by
      simp only [JsVal.beqFields, Bool.and_eq_true, beq_iff_eq] at h
      obtain ⟨⟨hk, hv⟩, hr⟩ := h
      have h1 := JsVal.eq_of_beq v v2 hv
      have h2 := JsVal.eqFields_of_beqFields r r2 hr
      simp [hk, h1, h2]
  | [], _ :: _, h => nomatch h
  | _ :: _, [], h => nomatch h

end


theorem alistGet_modify {κ α : Type} [DecidableEq κ] (l : List (κ × α)) (k k2 : κ)
    (f : α → α) :
    alistGet (alistModify l k f) k2 =
      if k2 = k then (alistGet l k2).map f else alistGet l k2 := by
  induction l with
  | nil => simp [alistModify, alistGet]
  | cons kv rest ih =>
    unfold alistModify at ih ⊢
    by_cases hkv : kv.1 = k
    · by_cases hk2 : kv.1 = k2
      · have he : k2 = k := hk2 ▸ hkv
        simp [alistGet, hkv, hk2, he]
      · have hne : ¬ k2 = k := fun h => hk2 (hkv.trans h.symm)
        have hkk : ¬ k = k2 := fun h => hne h.symm
        simp [alistGet, hkv, hk2, hne, hkk, ih]
    · by_cases hk2 : kv.1 = k2
      · have hne : ¬ k2 = k := fun h => hkv (hk2.trans h)
        simp [alistGet, hkv, hk2, hne]
      · simp [alistGet, hkv, hk2, ih]

theorem alistGet_append {κ α : Type} [DecidableEq κ] (l l2 : List (κ × α)) (k : κ) :
    alistGet (l ++ l2) k = ((alistGet l k).or (alistGet l2 k)) := by
  induction l with
  | nil => simp [alistGet]
  | cons kv rest ih =>
    by_cases hkv : kv.1 = k <;> simp_all [alistGet]

theorem alistGet_replace {κ α : Type} [DecidableEq κ] (k k2 : κ) (a : α) :
    ∀ l : List (κ × α), (alistGet l k).isSome →
      alistGet (l.map fun kv => if kv.1 = k then (kv.1, a) else kv) k2 =
        if k2 = k then some a else alistGet l k2 := by
  intro l
  induction l with
  | nil => simp [alistGet]
  | cons kv rest ih =>
    intro hs
    by_cases hkv : kv.1 = k
    · by_cases hk2 : kv.1 = k2
      · have he : k2 = k := hk2 ▸ hkv
        simp [alistGet, hkv, hk2, he]
      · have hne : ¬ k2 = k := fun h => hk2 (hkv.trans h.symm)
        have hkk : ¬ k = k2 := fun h => hne h.symm
        have hrest : (alistGet (rest.map fun kv => if kv.1 = k then (kv.1, a) else kv) k2) =
            alistGet rest k2 := by
          clear ih hs
          induction rest with
          | nil => simp [alistGet]
          | cons kv2 rest2 ih2 =>
            by_cases hkv2 : kv2.1 = k
            · have h2 : ¬ kv2.1 = k2 := fun h => hne (h ▸ hkv2 ▸ rfl)
              simp [alistGet, hkv2, h2, ih2, hne, hkk]
            · by_cases hkk2 : kv2.1 = k2 <;> simp [alistGet, hkv2, hkk2, ih2, hne]
        simp [alistGet, hkv, hk2, hne, hkk, hrest]
    · have hs2 : (alistGet rest k).isSome := by
        simpa [alistGet, hkv] using hs
      by_cases hk2 : kv.1 = k2
      · have hne : ¬ k2 = k := fun h => hkv (hk2.trans h)
        simp [alistGet, hkv, hk2, hne]
      · simp [alistGet, hkv, hk2, ih hs2]

theorem alistGet_set {κ α : Type} [DecidableEq κ] (l : List (κ × α)) (k k2 : κ) (a : α) :
    alistGet (alistSet l k a) k2 = if k2 = k then some a else alistGet l k2 := by
  by_cases hs : (alistGet l k).isSome
  · have hred : alistSet l k a = l.map fun kv => if kv.1 = k then (kv.1, a) else kv := by
      unfold alistSet; simp [hs]
    rw [hred]
    exact alistGet_replace k k2 a l hs
  · have hnone : alistGet l k = none := Option.not_isSome_iff_eq_none.mp hs
    have hred : alistSet l k a = l ++ [(k, a)] := by
      unfold alistSet; simp [hs]
    rw [hred, alistGet_append]
    by_cases hk2 : k2 = k
    · subst hk2
      rw [hnone]
      simp [alistGet]
    · have hkk : ¬ k = k2 := fun h => hk2 h.symm
      have h1 : alistGet [(k, a)] k2 = none := by simp [alistGet, hkk]
      rw [h1, if_neg hk2]
      cases alistGet l k2 <;> rfl

theorem alistGet_mapVals {κ α : Type} [DecidableEq κ] (f : α → α) (l : List (κ × α))
    (k : κ) :
    alistGet (alistMapVals f l) k = (alistGet l k).map f := by
  induction l with
  | nil => simp [alistMapVals, alistGet]
  | cons kv rest ih =>
    by_cases hkv : kv.1 = k <;> simp_all [alistMapVals, alistGet]

theorem invalidateCacheKey_get (c : List (String × CacheEntry)) (k0 k : String) :
    alistGet (invalidateCacheKey c k0) k =
      if k = k0 then (alistGet c k).map stampEntry else alistGet c k := by
  unfold invalidateCacheKey
  by_cases hs : (alistGet c k0).isSome
  · simp [hs, alistGet_modify]
  · simp only [hs, if_false]
    by_cases hk : k = k0
    · subst hk
      simp [Option.not_isSome_iff_eq_none.mp hs]
    · simp [hk]

theorem invalidateCache_get (c : List (String × CacheEntry)) (k : String) :
    alistGet (invalidateCache c) k = (alistGet c k).map stampIfTimestamped := by
  simp [invalidateCache, alistGet_mapVals]

theorem stampEntry_stampEntry (e : CacheEntry) :
    stampEntry (stampEntry e) = stampEntry e := rfl

theorem stampIfTimestamped_idem (e : CacheEntry) :
    stampIfTimestamped (stampIfTimestamped e) = stampIfTimestamped e := by
  by_cases h : e.timestamp.isSome <;> simp [stampIfTimestamped, h, stampEntry]

theorem foldl_invalidateCacheKey_get (ks : List String)
    (c : List (String × CacheEntry)) (k : String) :
    alistGet (ks.foldl invalidateCacheKey c) k =
      if k ∈ ks then (alistGet c k).map stampEntry else alistGet c k := by
  induction ks generalizing c with
  | nil => simp
  | cons k0 rest ih =>
    simp only [List.foldl_cons, ih, invalidateCacheKey_get, List.mem_cons]
    by_cases hk0 : k = k0 <;> by_cases hrest : k ∈ rest <;>
      simp [hk0, hrest, Option.map_map, Function.comp_def, stampEntry_stampEntry]

theorem stampEntry_dataVal (e : CacheEntry) : (stampEntry e).dataVal = e.dataVal := rfl

theorem stampIfTimestamped_dataVal (e : CacheEntry) :
    (stampIfTimestamped e).dataVal = e.dataVal := by
  by_cases h : e.timestamp.isSome <;> simp [stampIfTimestamped, h, stampEntry]

theorem invalidateCache_idem (c : List (String × CacheEntry)) :
    invalidateCache (invalidateCache c) = invalidateCache c := by
  have hfun : ((fun kv : String × CacheEntry => (kv.1, stampIfTimestamped kv.2)) ∘
      fun kv : String × CacheEntry => (kv.1, stampIfTimestamped kv.2)) =
      fun kv : String × CacheEntry => (kv.1, stampIfTimestamped kv.2) :=
    funext fun kv => by simp [stampIfTimestamped_idem]
  simp [invalidateCache, alistMapVals, List.map_map, hfun]

theorem fireAffected_get (ds : List Descriptor) (pool : List (String × ResourceState))
    (rid : String) :
    alistGet (fireAffected pool ds) rid =
      (alistGet pool rid).map (fun rs =>
        { rs with cache := (affectedKeysFor ds rid).foldl invalidateCacheKey rs.cache }) := by
  induction ds generalizing pool with
  | nil =>
    cases halk : alistGet pool rid <;> simp [fireAffected, affectedKeysFor, halk]
  | cons d rest ih =>
    have hstep : fireAffected pool (d :: rest) =
        fireAffected
          (match descId d with
           | some rid0 =>
             alistModify pool rid0
               (fun rs => { rs with cache := invalidateCacheKey rs.cache (keyBuilderFields d.fields) })
           | none => pool) rest := rfl
    rw [hstep]
    cases hdid : descId d with
    | none =>
      rw [ih]
      simp [affectedKeysFor, hdid]
    | some rid0 =>
      rw [ih, alistGet_modify]
      by_cases hrid : rid = rid0
      · subst hrid
        have hkeys : affectedKeysFor (d :: rest) rid =
            keyBuilderFields d.fields :: affectedKeysFor rest rid := by
          simp [affectedKeysFor, hdid]
        rw [if_pos rfl, hkeys, Option.map_map]
        cases halk : alistGet pool rid <;> simp [halk, Function.comp_def]
      · have hne : ¬ (descId d = some rid) := by
          rw [hdid]
          exact fun h => hrid (Option.some.inj h).symm
        have hkeys : affectedKeysFor (d :: rest) rid = affectedKeysFor rest rid := by
          simp [affectedKeysFor, hne]
        rw [if_neg hrid, hkeys]

theorem fireInvalidated_get (ids : List String) (pool : List (String × ResourceState))
    (rid : String) :
    alistGet (fireInvalidated pool ids) rid =
      if rid ∈ ids then
        (alistGet pool rid).map (fun rs => { rs with cache := invalidateCache rs.cache })
      else alistGet pool rid := by
  induction ids generalizing pool with
  | nil => simp [fireInvalidated]
  | cons i rest ih =>
    have hstep : fireInvalidated pool (i :: rest) =
        fireInvalidated
          (alistModify pool i (fun rs => { rs with cache := invalidateCache rs.cache })) rest := rfl
    rw [hstep, ih, alistGet_modify]
    by_cases h1 : rid ∈ rest <;> by_cases h2 : rid = i <;>
      cases alistGet pool rid <;>
        simp [h1, h2, List.mem_cons, invalidateCache_idem]

theorem mem_setAdd {α : Type} [DecidableEq α] (l : List α) (a b : α) :
    a ∈ setAdd l b ↔ a ∈ l ∨ a = b := by
  by_cases hb : b ∈ l
  · simp only [setAdd, hb, if_true]
    exact ⟨Or.inl, fun h => h.elim id (fun e => e ▸ hb)⟩
  · simp [setAdd, hb]

theorem setAdd_ne_nil {α : Type} [DecidableEq α] (l : List α) (a : α) :
    setAdd l a ≠ [] := by
  by_cases hb : a ∈ l
  · simp only [setAdd, hb, if_true]
    intro hl
    rw [hl] at hb
    exact List.not_mem_nil a hb
  · simp [setAdd, hb]

theorem descBeq_iff (a b : Descriptor) : descBeq a b = true ↔ a = b := by
  constructor
  · intro h
    cases a
    cases b
    simpa using JsVal.eqFields_of_beqFields _ _ h
  · rintro rfl
    exact JsVal.beqFields_refl a.fields

theorem mem_setAddDescriptor (l : List Descriptor) (a b : Descriptor) :
    a ∈ setAddDescriptor l b ↔ a ∈ l ∨ a = b := by
  by_cases hb : l.any (fun x => descBeq x b)
  · simp only [setAddDescriptor, hb, if_true]
    have hbl : b ∈ l := by
      rcases List.any_eq_true.mp hb with ⟨x, hx, hbx⟩
      exact (descBeq_iff x b).mp hbx ▸ hx
    exact ⟨Or.inl, fun h => h.elim id (fun e => e ▸ hbl)⟩
  · simp [setAddDescriptor, hb]

theorem setAddDescriptor_ne_nil (l : List Descriptor) (d : Descriptor) :
    setAddDescriptor l d ≠ [] := by
  by_cases hb : l.any (fun x => descBeq x d)
  · simp only [setAddDescriptor, hb, if_true]
    intro hl
    rw [hl] at hb
    simp [List.any] at hb
  · simp [setAddDescriptor, hb]

theorem affectsResource_affected (c : CascadeState) (d : Descriptor) :
    (affectsResource c d).affected = setAddDescriptor c.affected d := by
  simp only [affectsResource]
  split <;> rfl

theorem affectsResource_invalidated (c : CascadeState) (d : Descriptor) :
    (affectsResource c d).invalidated = c.invalidated := by
  simp only [affectsResource]
  split <;> rfl

theorem affectsResource_invListeners (c : CascadeState) (d : Descriptor) :
    (affectsResource c d).invListeners = c.invListeners := by
  simp only [affectsResource]
  split <;> rfl

theorem invalidatesResource_invalidated (c : CascadeState) (r : String) :
    (invalidatesResource c r).invalidated = setAdd c.invalidated r := by
  simp only [invalidatesResource]
  split <;> rfl

theorem invalidatesResource_affected (c : CascadeState) (r : String) :
    (invalidatesResource c r).affected = c.affected := by
  simp only [invalidatesResource]
  split <;> rfl

theorem invalidatesResource_affListeners (c : CascadeState) (r : String) :
    (invalidatesResource c r).affListeners = c.affListeners := by
  simp only [invalidatesResource]
  split <;> rfl

theorem applyCascadeCalls_aff_stable :
    ∀ (L : List CascadeCall) (c : CascadeState), c.affected ≠ [] →
      (applyCascadeCalls c L).affected ≠ [] ∧
      (applyCascadeCalls c L).affListeners = c.affListeners := by
  intro L
  induction L with
  | nil => exact fun c h => ⟨h, rfl⟩
  | cons x rest ih =>
    intro c h
    cases x with
    | aff d =>
      have hne : (affectsResource c d).affected ≠ [] := by
        rw [affectsResource_affected]
        exact setAddDescriptor_ne_nil _ _
      have hl : (affectsResource c d).affListeners = c.affListeners := by
        simp [affectsResource, List.isEmpty_iff, h]
      have := ih (affectsResource c d) hne
      exact ⟨this.1, by rw [applyCascadeCalls, this.2, hl]⟩
    | inv r =>
      have hne : (invalidatesResource c r).affected ≠ [] := by
        rw [invalidatesResource_affected]; exact h
      have := ih (invalidatesResource c r) hne
      exact ⟨this.1, by rw [applyCascadeCalls, this.2, invalidatesResource_affListeners]⟩

theorem applyCascadeCalls_affListeners :
    ∀ (L : List CascadeCall) (c : CascadeState), c.affected = [] →
      (applyCascadeCalls c L).affListeners =
        c.affListeners + (if L.any isAffCall then 1 else 0) := by
  intro L
  induction L with
  | nil => intro c _; simp [applyCascadeCalls]
  | cons x rest ih =>
    intro c h
    cases x with
    | aff d =>
      have hne : (affectsResource c d).affected ≠ [] := by
        rw [affectsResource_affected]
        exact setAddDescriptor_ne_nil _ _
      have hl : (affectsResource c d).affListeners = c.affListeners + 1 := by
        simp [affectsResource, h]
      have := applyCascadeCalls_aff_stable rest (affectsResource c d) hne
      rw [applyCascadeCalls, this.2, hl]
      simp [isAffCall]
    | inv r =>
      have h2 : (invalidatesResource c r).affected = [] := by
        rw [invalidatesResource_affected]; exact h
      rw [applyCascadeCalls, ih (invalidatesResource c r) h2,
        invalidatesResource_affListeners]
      simp [isAffCall]

theorem applyCascadeCalls_inv_stable :
    ∀ (L : List CascadeCall) (c : CascadeState), c.invalidated ≠ [] →
      (applyCascadeCalls c L).invalidated ≠ [] ∧
      (applyCascadeCalls c L).invListeners = c.invListeners := by
  intro L
  induction L with
  | nil => exact fun c h => ⟨h, rfl⟩
  | cons x rest ih =>
    intro c h
    cases x with
    | aff d =>
      have hne : (affectsResource c d).invalidated ≠ [] := by
        rw [affectsResource_invalidated]; exact h
      have := ih (affectsResource c d) hne
      exact ⟨this.1, by rw [applyCascadeCalls, this.2, affectsResource_invListeners]⟩
    | inv r =>
      have hne : (invalidatesResource c r).invalidated ≠ [] := by
        simp only [invalidatesResource]
        exact setAdd_ne_nil _ _
      have hl : (invalidatesResource c r).invListeners = c.invListeners := by
        simp [invalidatesResource, List.isEmpty_iff, h]
      have := ih (invalidatesResource c r) hne
      exact ⟨this.1, by rw [applyCascadeCalls, this.2, hl]⟩

theorem applyCascadeCalls_invListeners :
    ∀ (L : List CascadeCall) (c : CascadeState), c.invalidated = [] →
      (applyCascadeCalls c L).invListeners =
        c.invListeners + (if L.any isInvCall then 1 else 0) := by
  intro L
  induction L with
  | nil => intro c _; simp [applyCascadeCalls]
  | cons x rest ih =>
    intro c h
    cases x with
    | aff d =>
      have h2 : (affectsResource c d).invalidated = [] := by
        rw [affectsResource_invalidated]; exact h
      rw [applyCascadeCalls, ih (affectsResource c d) h2, affectsResource_invListeners]
      simp [isInvCall]
    | inv r =>
      have hne : (invalidatesResource c r).invalidated ≠ [] := by
        simp only [invalidatesResource]
        exact setAdd_ne_nil _ _
      have hl : (invalidatesResource c r).invListeners = c.invListeners + 1 := by
        simp [invalidatesResource, h]
      have := applyCascadeCalls_inv_stable rest (invalidatesResource c r) hne
      rw [applyCascadeCalls, this.2, hl]
      simp [isInvCall]

theorem applyCascadeCalls_mem_affected :
    ∀ (L : List CascadeCall) (c : CascadeState) (d : Descriptor),
      d ∈ (applyCascadeCalls c L).affected ↔ d ∈ c.affected ∨ CascadeCall.aff d ∈ L := by
  intro L
  induction L with
  | nil => intro c d; simp [applyCascadeCalls]
  | cons x rest ih =>
    intro c d
    cases x with
    | aff d0 =>
      rw [applyCascadeCalls, ih, affectsResource_affected, mem_setAddDescriptor]
      constructor
      · rintro ((h | h) | h)
        · exact Or.inl h
        · exact Or.inr (by simp [h])
        · exact Or.inr (by simp [h])
      · rintro (h | h)
        · exact Or.inl (Or.inl h)
        · rcases List.mem_cons.mp h with h | h
          · exact Or.inl (Or.inr (by injection h))
          · exact Or.inr h
    | inv r =>
      rw [applyCascadeCalls, ih, invalidatesResource_affected]
      simp

theorem applyCascadeCalls_mem_invalidated :
    ∀ (L : List CascadeCall) (c : CascadeState) (r : String),
      r ∈ (applyCascadeCalls c L).invalidated ↔
        r ∈ c.invalidated ∨ CascadeCall.inv r ∈ L := by
  intro L
  induction L with
  | nil => intro c r; simp [applyCascadeCalls]
  | cons x rest ih =>
    intro c r
    cases x with
    | aff d0 =>
      rw [applyCascadeCalls, ih, affectsResource_invalidated]
      simp
    | inv r0 =>
      rw [applyCascadeCalls, ih, invalidatesResource_invalidated, mem_setAdd]
      constructor
      · rintro ((h | h) | h)
        · exact Or.inl h
        · exact Or.inr (by simp [h])
        · exact Or.inr (by simp [h])
      · rintro (h | h)
        · exact Or.inl (Or.inl h)
        · rcases List.mem_cons.mp h with h | h
          · exact Or.inl (Or.inr (by injection h))
          · exact Or.inr h

/-! ### Claim theorems -/

/-- Claim C1 (checked against the code, which contradicts it): with an
in-flight fetch installed for a key (pending set, no completed attempt),
the claim says a second GET query returns the very same in-flight future
with status STALE or EMPTY and starts no new network call.  The code
instead takes the failed-entry branch, because the placeholder entry has
no success key, so the second query returns status ERROR with a fresh
future and puts a second network call on the wire. -/
theorem claim_C1_dedup_broken :
    resourceGet c1cfg c1args 0 c1st0 =
      .ok ({ status := .EMPTY, data := .obj [], error := .undef, promise := .pending 0 },
           c1st1) ∧
    alistGet c1st1.cache c1key = some (placeholderEntry (.pending 0) .null) ∧
    (placeholderEntry (.pending 0) JsVal.null).pendingGet = some (.pending 0) ∧
    (placeholderEntry (.pending 0) JsVal.null).success = none ∧
    resourceGet c1cfg c1args 5 c1st1 =
      .ok ({ status := .ERROR, data := .obj [], error := .null, promise := .pending 1 },
           c1st2) ∧
    Future.pending 1 ≠ Future.pending 0 ∧
    c1st2.fetches.length = 2 ∧
    DataStatus.ERROR ≠ DataStatus.STALE ∧
    DataStatus.ERROR ≠ DataStatus.EMPTY := by
  refine ⟨rfl, rfl, rfl, rfl, rfl, ?_, rfl, by decide, by decide⟩
  intro h
  exact absurd (Future.pending.inj h) (by decide)

/-- Claim C5 (checked against the code, which contradicts its final
clause): within the TTL a failed entry is served as ERROR with an
already-rejected future and no network call, and at expiry one new fetch
starts; but a further query issued while that retry is still in flight
starts yet another fetch, so a failing endpoint is not re-queried at most
once per TTL window. -/
theorem claim_C5_retry_window_broken :
    resourceGet c5cfg c5args 59999 c5st0 =
      .ok ({ status := .ERROR, data := .obj [], error := c5err,
             promise := .rejected c5err }, c5st0) ∧
    resourceGet c5cfg c5args 60000 c5st0 =
      .ok ({ status := .ERROR, data := .obj [], error := c5err,
             promise := .pending 0 }, c5st1) ∧
    resourceGet c5cfg c5args 60001 c5st1 =
      .ok ({ status := .ERROR, data := .obj [], error := c5err,
             promise := .pending 1 }, c5st2) ∧
    c5st2.fetches.length = 2 := by
  exact ⟨rfl, rfl, rfl, rfl⟩

/-- Claim C4, counterexample: two inputs that differ in the query and
params values yet build the same cache key, because the serialized
components are concatenated with no separator. -/
theorem claim_C4_counterexample :
    keyBuilder (.num 1) (.num 23) (.obj []) = keyBuilder (.num 12) (.num 3) (.obj []) ∧
    JsVal.num 1 ≠ JsVal.num 12 ∧ JsVal.num 23 ≠ JsVal.num 3 := by
  refine ⟨rfl, ?_, ?_⟩ <;> intro h <;> exact absurd (JsVal.num.inj h) (by decide)

/-- Claim C4 as amended: the cache-key builder is deterministic
(structurally equal inputs give the same key), but it is not
collision-free: inputs that differ in a parameter value can produce the
same key. -/
theorem claim_C4_amended :
    (∀ q p h q2 p2 h2 : JsVal, q = q2 → p = p2 → h = h2 →
      keyBuilder q p h = keyBuilder q2 p2 h2) ∧
    (∃ q p h q2 p2 h2 : JsVal, (q ≠ q2 ∨ p ≠ p2 ∨ h ≠ h2) ∧
      keyBuilder q p h = keyBuilder q2 p2 h2) := by
  constructor
  · rintro q p h q2 p2 h2 rfl rfl rfl
    rfl
  · exact ⟨.num 1, .num 23, .obj [], .num 12, .num 3, .obj [],
      Or.inl (fun hh => absurd (JsVal.num.inj hh) (by decide)), rfl⟩

/-- Claim C4 witness for the amended determinism part, at one concrete
input. -/
theorem claim_C4_amended_witness :
    keyBuilder (.str "a") (.obj [("u", .str "x")]) (.obj [])
      = keyBuilder (.str "a") (.obj [("u", .str "x")]) (.obj []) :=
  claim_C4_amended.1 _ _ _ _ _ _ rfl rfl rfl

/-- Claim C7, counterexample: a Payload on which both affectsResource and
invalidatesResource were called has two registered completion listeners,
not one. -/
theorem claim_C7_counterexample :
    c7casc.affListeners + c7casc.invListeners = 2 := rfl

/-- Claim C9, counterexample: an unsupported verb on a registered resource
does not throw past queryResource; the exception is caught internally and
the call returns null. -/
theorem claim_C9_counterexample :
    queryResource c9api "USER" c9req 0 = .ok (none, c9api) := rfl

/-- Claim C10, counterexample: with authRequired set and no authentication
header, a query using an unsupported verb does not return an ERROR
Payload; it returns null because the method check throws first and the
exception is swallowed. -/
theorem claim_C10_counterexample :
    queryResource c10api "SECURE" c10req 0 = .ok (none, c10api) := rfl

/-- Claim C2: for a key whose last fetch completed successfully at time t1
with data D, a GET query at t1 + delta with delta below the TTL and
forceRefresh false returns FRESH with data D and an already-resolved
future, issuing no network call; a query at or after t1 + TTL, or with
forceRefresh true, returns STALE with the previous data D and dispatches
exactly one new fetch whose future is the resultFuture of the Payload. -/
theorem claim_C2_ttl_freshness (cfg : ResourceCfg) (a : GetArgs) (D : JsVal)
    (t1 δ : Nat) (st : FetchState)
    (hm : a.method = "get")
    (hauth : (!a.auth && cfg.authRequired) = false)
    (hinv : isInvalidRequest a.params = false)
    (hent : alistGet st.cache (keyBuilder a.query a.params a.header) =
      some (successEntry D t1)) :
    ((δ < cfg.timeUntilStale ∧ a.forceRefresh = false) →
      resourceGet cfg a (t1 + δ) st =
        .ok ({ status := .FRESH, data := D, error := .undef, promise := .resolved D },
             st)) ∧
    ((cfg.timeUntilStale ≤ δ ∨ a.forceRefresh = true) →
      resourceGet cfg a (t1 + δ) st =
        .ok ({ status := .STALE, data := D, error := .undef,
               promise := .pending st.nextId },
             { cache := alistSet st.cache (keyBuilder a.query a.params a.header)
                 (placeholderEntry (.pending st.nextId) D),
               nextId := st.nextId + 1,
               fetches := st.fetches ++ [st.nextId] })) := by
  constructor
  · rintro ⟨hδ, hfr⟩
    have hage : ageLt (t1 + δ) (some t1) cfg.timeUntilStale = true := by
      simp only [ageLt, decide_eq_true_eq]
      push_cast
      omega
    unfold resourceGet
    simp [hm, hauth, hinv, hent, successEntry, entryData, hage, hfr]
  · intro h
    unfold resourceGet
    rcases h with h | hfr
    · have hage : ageLt (t1 + δ) (some t1) cfg.timeUntilStale = false := by
        simp only [ageLt, decide_eq_false_iff_not]
        push_cast
        omega
      simp [hm, hauth, hinv, hent, successEntry, entryData, hage, makeFetch,
        placeholderEntry]
    · simp [hm, hauth, hinv, hent, successEntry, entryData, hfr, makeFetch,
        placeholderEntry]

/-- Claim C2 witness: the scenario of the spec, TTL 60000, a fetch that
completed at time 100 with a user object, read at time 1100 (FRESH) and at
time 60100 (STALE with one new fetch). -/
theorem claim_C2_ttl_freshness_witness :
    resourceGet { model := .obj [], timeUntilStale := 60000, authRequired := false }
        { method := "get", params := .obj [("username", .str "dase")], query := .undef,
          header := .obj [], forceRefresh := false, auth := true }
        (100 + 1000)
        { cache := [(keyBuilder .undef (.obj [("username", .str "dase")]) (.obj []),
            successEntry (.obj [("name", .str "Peter")]) 100)],
          nextId := 7, fetches := [3] } =
      .ok ({ status := .FRESH, data := .obj [("name", .str "Peter")], error := .undef,
             promise := .resolved (.obj [("name", .str "Peter")]) },
           { cache := [(keyBuilder .undef (.obj [("username", .str "dase")]) (.obj []),
               successEntry (.obj [("name", .str "Peter")]) 100)],
             nextId := 7, fetches := [3] }) ∧
    resourceGet { model := .obj [], timeUntilStale := 60000, authRequired := false }
        { method := "get", params := .obj [("username", .str "dase")], query := .undef,
          header := .obj [], forceRefresh := false, auth := true }
        (100 + 60000)
        { cache := [(keyBuilder .undef (.obj [("username", .str "dase")]) (.obj []),
            successEntry (.obj [("name", .str "Peter")]) 100)],
          nextId := 7, fetches := [3] } =
      .ok ({ status := .STALE, data := .obj [("name", .str "Peter")], error := .undef,
             promise := .pending 7 },
           { cache := alistSet
               [(keyBuilder .undef (.obj [("username", .str "dase")]) (.obj []),
                 successEntry (.obj [("name", .str "Peter")]) 100)]
               (keyBuilder .undef (.obj [("username", .str "dase")]) (.obj []))
               (placeholderEntry (.pending 7) (.obj [("name", .str "Peter")])),
             nextId := 8, fetches := [3, 7] }) := by
  constructor
  · have h := claim_C2_ttl_freshness
      { model := .obj [], timeUntilStale := 60000, authRequired := false }
      { method := "get", params := .obj [("username", .str "dase")], query := .undef,
        header := .obj [], forceRefresh := false, auth := true }
      (.obj [("name", .str "Peter")]) 100 1000
      { cache := [(keyBuilder .undef (.obj [("username", .str "dase")]) (.obj []),
          successEntry (.obj [("name", .str "Peter")]) 100)],
        nextId := 7, fetches := [3] }
      rfl rfl rfl rfl
    exact h.1 ⟨by decide, rfl⟩
  · have h := claim_C2_ttl_freshness
      { model := .obj [], timeUntilStale := 60000, authRequired := false }
      { method := "get", params := .obj [("username", .str "dase")], query := .undef,
        header := .obj [], forceRefresh := false, auth := true }
      (.obj [("name", .str "Peter")]) 100 60000
      { cache := [(keyBuilder .undef (.obj [("username", .str "dase")]) (.obj []),
          successEntry (.obj [("name", .str "Peter")]) 100)],
        nextId := 7, fetches := [3] }
      rfl rfl rfl rfl
    exact h.2 (Or.inl (by decide))

/-- Claim C3, counterexample: for a resource whose endpoint template is
/users/:username (so username is a required path parameter), a query that
omits the parameter entirely, either with an empty params object or with
no params value at all, is NOT rejected: isInvalidRequest visits no
undefined or null value, the call reaches the network (one fetch is put
on the wire) and returns status EMPTY with an in-flight future, not the
synchronous ERROR Payload the claim demands. -/
theorem claim_C3_counterexample :
    isInvalidRequest (.obj []) = false ∧
    isInvalidRequest .undef = false ∧
    resourceGet c3cfg c3argsOmitted 0 { cache := [], nextId := 0, fetches := [] } =
      .ok ({ status := .EMPTY, data := .obj [], error := .undef, promise := .pending 0 },
           { cache := [(keyBuilder .undef (.obj []) (.obj []),
               placeholderEntry (.pending 0) .null)],
             nextId := 1, fetches := [0] }) ∧
    resourceGet c3cfg c3argsNoParams 0 { cache := [], nextId := 0, fetches := [] } =
      .ok ({ status := .EMPTY, data := .obj [], error := .undef, promise := .pending 0 },
           { cache := [(keyBuilder .undef .undef (.obj []),
               placeholderEntry (.pending 0) .null)],
             nextId := 1, fetches := [0] }) ∧
    DataStatus.EMPTY ≠ DataStatus.ERROR := by
  refine ⟨rfl, rfl, rfl, rfl, ?_⟩
  decide

/-- Claim C3 as amended: a query (any supported verb) whose params object
carries a parameter whose value is undefined or null never reaches the
network and synchronously returns an ERROR Payload holding the default
model and a future already resolved with that model; the state, including
the cache and the call log, is untouched.  (A required parameter that is
omitted entirely is not rejected; see the counterexample.) -/
theorem claim_C3_invalid_params (cfg : ResourceCfg) (a : GetArgs) (now : Nat)
    (st : FetchState) (fields : List (String × JsVal))
    (hm : a.method = "get" ∨ a.method = "post" ∨ a.method = "put" ∨ a.method = "delete")
    (hp : a.params = .obj fields)
    (hmiss : ∃ f ∈ fields, f.2 = JsVal.undef ∨ f.2 = JsVal.null) :
    resourceGet cfg a now st =
      .ok ({ status := .ERROR, data := cfg.model, error := .undef,
             promise := .resolved cfg.model }, st) := by
  have hinv : isInvalidRequest a.params = true := by
    rw [hp]
    simp only [isInvalidRequest, List.any_eq_true]
    rcases hmiss with ⟨f, hf, hcase⟩
    refine ⟨f, hf, ?_⟩
    rcases hcase with h | h <;> simp [h, jsIsUndefined, jsIsNull]
  unfold resourceGet
  by_cases hauth : (!a.auth && cfg.authRequired) = true
  · simp [hm, hauth]
  · simp [hm, hauth, hinv]

/-- Claim C3 witness: a GET query with a null username parameter. -/
theorem claim_C3_invalid_params_witness :
    resourceGet { model := .obj [], timeUntilStale := 60000, authRequired := false }
        { method := "get", params := .obj [("username", .null)], query := .undef,
          header := .obj [], forceRefresh := false, auth := true }
        0 { cache := [], nextId := 0, fetches := [] } =
      .ok ({ status := .ERROR, data := .obj [], error := .undef,
             promise := .resolved (.obj []) },
           { cache := [], nextId := 0, fetches := [] }) :=
  claim_C3_invalid_params _ _ 0 _ [("username", .null)]
    (Or.inl rfl) rfl ⟨("username", .null), by simp, Or.inr rfl⟩

/-- Claim C6, counterexample: a resource whose only entry is a pending
placeholder is declared as an invalidatesResource target; the mutation
future resolves, yet the timestamp of that entry is not set to the epoch
(the entry carries no timestamp and invalidateCache skips it). -/
theorem claim_C6_counterexample :
    c6casc.invalidated = ["R"] ∧
    settleCascade c6pool c6casc true = c6pool ∧
    (∃ rs, alistGet c6pool "R" = some rs ∧
      alistGet rs.cache "k" = some (placeholderEntry (.pending 0) .null)) ∧
    (placeholderEntry (.pending 0) JsVal.null).timestamp ≠ some 0 := by
  refine ⟨rfl, rfl, ⟨_, rfl, rfl⟩, ?_⟩
  intro hcontra
  simp [placeholderEntry] at hcontra

/-- Claim C6 as amended: if the mutation future rejects, the cascade
changes no cache state; if it resolves, the cascade stamps to the epoch
the timestamp of the entry under the rebuilt cache key of every
affectsResource descriptor (when such an entry exists), and of every
timestamp-bearing entry of every invalidatesResource resource, leaving
entries without a timestamp untouched, deleting nothing, changing no entry
data, and touching no other resource.  Target kinds are assumed disjoint,
every target id is assumed registered (an unregistered target makes the
listener body in the source raise, which the promise catch swallows), and
the cascade is assumed to carry one registered listener per used kind, as
a single Payload produces. -/
theorem claim_C6_amended (pool : List (String × ResourceState)) (c : CascadeState)
    (haff : c.affListeners = if c.affected.isEmpty then 0 else 1)
    (hinvl : c.invListeners = if c.invalidated.isEmpty then 0 else 1)
    (hdisj : ∀ d ∈ c.affected, ∀ s, descId d = some s → s ∉ c.invalidated)
    (_hregA : ∀ d ∈ c.affected, ∃ s, descId d = some s ∧ (alistGet pool s).isSome)
    (_hregI : ∀ rid ∈ c.invalidated, (alistGet pool rid).isSome) :
    (settleCascade pool c false = pool) ∧
    (∀ rid, rid ∉ c.invalidated → affectedKeysFor c.affected rid = [] →
      alistGet (settleCascade pool c true) rid = alistGet pool rid) ∧
    (∀ rid rs, rid ∈ c.invalidated → alistGet pool rid = some rs →
      ∃ rs2, alistGet (settleCascade pool c true) rid = some rs2 ∧ rs2.cfg = rs.cfg ∧
        (∀ k, alistGet rs2.cache k = (alistGet rs.cache k).map stampIfTimestamped) ∧
        (∀ k, (alistGet rs2.cache k).map (fun e => e.dataVal) =
              (alistGet rs.cache k).map (fun e => e.dataVal))) ∧
    (∀ rid rs, rid ∉ c.invalidated → alistGet pool rid = some rs →
      ∃ rs2, alistGet (settleCascade pool c true) rid = some rs2 ∧ rs2.cfg = rs.cfg ∧
        (∀ k, k ∈ affectedKeysFor c.affected rid →
          alistGet rs2.cache k = (alistGet rs.cache k).map stampEntry) ∧
        (∀ k, k ∉ affectedKeysFor c.affected rid →
          alistGet rs2.cache k = alistGet rs.cache k) ∧
        (∀ k, (alistGet rs2.cache k).map (fun e => e.dataVal) =
              (alistGet rs.cache k).map (fun e => e.dataVal))) := by
  have haffpt : ∀ (q : List (String × ResourceState)) (rid : String),
      alistGet ((fun p => fireAffected p c.affected)^[c.affListeners] q) rid =
        (alistGet q rid).map (fun rs =>
          { rs with cache := (affectedKeysFor c.affected rid).foldl invalidateCacheKey rs.cache }) := by
    intro q rid
    by_cases hA : c.affected.isEmpty
    · have hA2 : c.affected = [] := List.isEmpty_iff.mp hA
      rw [haff, if_pos hA]
      simp only [Function.iterate_zero, id_eq]
      rw [hA2]
      simp only [affectedKeysFor, List.filter_nil, List.map_nil, List.foldl_nil]
      cases alistGet q rid <;> rfl
    · rw [haff, if_neg hA]
      simp only [Function.iterate_one]
      exact fireAffected_get _ _ _
  have hinvpt : ∀ (q : List (String × ResourceState)) (rid : String),
      alistGet ((fun p => fireInvalidated p c.invalidated)^[c.invListeners] q) rid =
        if rid ∈ c.invalidated then
          (alistGet q rid).map (fun rs => { rs with cache := invalidateCache rs.cache })
        else alistGet q rid := by
    intro q rid
    by_cases hI : c.invalidated.isEmpty
    · have hI2 : c.invalidated = [] := List.isEmpty_iff.mp hI
      rw [hinvl, if_pos hI]
      simp only [Function.iterate_zero, id_eq]
      rw [hI2]
      simp
    · rw [hinvl, if_neg hI]
      simp only [Function.iterate_one]
      exact fireInvalidated_get _ _ _
  have hsettle : settleCascade pool c true =
      (fun p => fireInvalidated p c.invalidated)^[c.invListeners]
        ((fun p => fireAffected p c.affected)^[c.affListeners] pool) := rfl
  refine ⟨rfl, ?_, ?_, ?_⟩
  · intro rid hnm hkeys
    rw [hsettle, hinvpt, if_neg hnm, haffpt, hkeys]
    simp only [List.foldl_nil]
    cases alistGet pool rid <;> rfl
  · intro rid rs hmem hget
    have hkeys : affectedKeysFor c.affected rid = [] := by
      unfold affectedKeysFor
      rw [List.filter_eq_nil_iff.mpr, List.map_nil]
      intro d hd
      simp only [decide_eq_true_eq]
      intro hsome
      exact hdisj d hd rid hsome hmem
    rw [hsettle, hinvpt, if_pos hmem, haffpt, hkeys]
    simp only [List.foldl_nil]
    rw [hget]
    refine ⟨_, rfl, rfl, ?_, ?_⟩
    · intro k
      exact invalidateCache_get _ _
    · intro k
      rw [invalidateCache_get]
      cases alistGet rs.cache k <;> simp [stampIfTimestamped_dataVal]
  · intro rid rs hnm hget
    rw [hsettle, hinvpt, if_neg hnm, haffpt, hget]
    refine ⟨_, rfl, rfl, ?_, ?_, ?_⟩
    · intro k hk
      rw [foldl_invalidateCacheKey_get, if_pos hk]
    · intro k hk
      rw [foldl_invalidateCacheKey_get, if_neg hk]
    · intro k
      rw [foldl_invalidateCacheKey_get]
      by_cases hk : k ∈ affectedKeysFor c.affected rid
      · rw [if_pos hk]
        cases alistGet rs.cache k <;> simp [stampEntry_dataVal]
      · rw [if_neg hk]

/-- Claim C6 witness: a two-resource pool, a cascade targeting one entry
of resource A and all of resource B; the rejection conjunct and the
invalidatesResource conjunct are instantiated. -/
theorem claim_C6_amended_witness :
    settleCascade c6wpool c6wcasc false = c6wpool ∧
    (∃ rs2, alistGet (settleCascade c6wpool c6wcasc true) "B" = some rs2 ∧
      rs2.cfg = c6wrsB.cfg ∧
      (∀ k, alistGet rs2.cache k = (alistGet c6wrsB.cache k).map stampIfTimestamped) ∧
      (∀ k, (alistGet rs2.cache k).map (fun e => e.dataVal) =
            (alistGet c6wrsB.cache k).map (fun e => e.dataVal))) := by
  have hdisj : ∀ d ∈ c6wcasc.affected, ∀ s, descId d = some s → s ∉ c6wcasc.invalidated := by
    intro d hd s hs
    rw [show c6wcasc.affected = [c6wdesc] from rfl, List.mem_singleton] at hd
    subst hd
    have hsa : s = "A" := by
      have hida : descId c6wdesc = some "A" := rfl
      rw [hida] at hs
      exact (Option.some.inj hs).symm
    subst hsa
    decide
  have hregA : ∀ d ∈ c6wcasc.affected, ∃ s, descId d = some s ∧
      (alistGet c6wpool s).isSome := by
    intro d hd
    rw [show c6wcasc.affected = [c6wdesc] from rfl, List.mem_singleton] at hd
    subst hd
    exact ⟨"A", rfl, rfl⟩
  have hregI : ∀ rid ∈ c6wcasc.invalidated, (alistGet c6wpool rid).isSome := by
    intro rid hmem
    rw [show c6wcasc.invalidated = ["B"] from rfl, List.mem_singleton] at hmem
    subst hmem
    rfl
  have h := claim_C6_amended c6wpool c6wcasc rfl rfl hdisj hregA hregI
  exact ⟨h.1, h.2.2.1 "B" c6wrsB (by decide) rfl⟩

/-- Claim C7 as amended: on one Payload, the first affectsResource call
registers one completion listener for the affected set and the first
invalidatesResource call registers one completion listener for the
invalidated set (so a Payload using both kinds carries two listeners, one
per kind, not one in total); repeated calls of either kind add no further
listener, and the accumulated sets contain exactly the targets passed to
the calls. -/
theorem claim_C7_amended (L : List CascadeCall) :
    (applyCascadeCalls emptyCascade L).affListeners =
      (if L.any isAffCall then 1 else 0) ∧
    (applyCascadeCalls emptyCascade L).invListeners =
      (if L.any isInvCall then 1 else 0) ∧
    (∀ d, d ∈ (applyCascadeCalls emptyCascade L).affected ↔ CascadeCall.aff d ∈ L) ∧
    (∀ r, r ∈ (applyCascadeCalls emptyCascade L).invalidated ↔ CascadeCall.inv r ∈ L) := by
  refine ⟨?_, ?_, ?_, ?_⟩
  · simpa [emptyCascade] using applyCascadeCalls_affListeners L emptyCascade rfl
  · simpa [emptyCascade] using applyCascadeCalls_invListeners L emptyCascade rfl
  · intro d
    simpa [emptyCascade] using applyCascadeCalls_mem_affected L emptyCascade d
  · intro r
    simpa [emptyCascade] using applyCascadeCalls_mem_invalidated L emptyCascade r

/-- Claim C7 witness: one affectsResource call followed by one
invalidatesResource call gives one listener of each kind. -/
theorem claim_C7_amended_witness :
    (applyCascadeCalls emptyCascade
      [CascadeCall.aff ⟨[("id", .str "R")]⟩, CascadeCall.inv "S"]).affListeners = 1 ∧
    (applyCascadeCalls emptyCascade
      [CascadeCall.aff ⟨[("id", .str "R")]⟩, CascadeCall.inv "S"]).invListeners = 1 := by
  have h := claim_C7_amended [CascadeCall.aff ⟨[("id", .str "R")]⟩, CascadeCall.inv "S"]
  exact ⟨h.1, h.2.1⟩

/-- Claim C8, counterexample: a resource whose only entry is a pending
placeholder; setting the authentication header leaves that entry without
any timestamp rather than stamping it to the epoch. -/
theorem claim_C8_counterexample :
    (setAuthHeader c8api [("Authorization", .str "token")]).pool = c8api.pool ∧
    (∃ rs, alistGet c8api.pool "R" = some rs ∧
      alistGet rs.cache "k" = some (placeholderEntry (.pending 0) .null)) ∧
    (placeholderEntry (.pending 0) JsVal.null).timestamp ≠ some 0 := by
  refine ⟨rfl, ⟨_, rfl, rfl⟩, ?_⟩
  intro hcontra
  simp [placeholderEntry] at hcontra

/-- Claim C8 as amended: setting or clearing the authentication header
emits exactly one change notification with no payload, maps every cache of
every registered resource through invalidateCache (stamping the timestamp
of every timestamp-bearing entry to the epoch, leaving pending
placeholders untouched), deletes no entry, changes no entry data, and the
next GET read of any previously successful entry, at or beyond the TTL
since the epoch, observes STALE with the old data and one new fetch. -/
theorem claim_C8_amended (api : ApiState) (h : List (String × JsVal)) :
    ((setAuthHeader api h).events = api.events ++ [ChangeEvent.noArg] ∧
     (unsetAuthHeader api).events = api.events ++ [ChangeEvent.noArg]) ∧
    (∀ rid,
      alistGet (setAuthHeader api h).pool rid =
        (alistGet api.pool rid).map (fun rs => { rs with cache := invalidateCache rs.cache }) ∧
      alistGet (unsetAuthHeader api).pool rid =
        (alistGet api.pool rid).map (fun rs => { rs with cache := invalidateCache rs.cache })) ∧
    (∀ rid rs, alistGet api.pool rid = some rs →
      ∃ rs2, alistGet (setAuthHeader api h).pool rid = some rs2 ∧ rs2.cfg = rs.cfg ∧
        (∀ k, alistGet rs2.cache k = (alistGet rs.cache k).map stampIfTimestamped) ∧
        (∀ k, (alistGet rs2.cache k).map (fun e => e.dataVal) =
              (alistGet rs.cache k).map (fun e => e.dataVal)) ∧
        (∀ k, (alistGet rs2.cache k).isSome = (alistGet rs.cache k).isSome)) ∧
    (∀ rid rs D t1 (a : GetArgs) (now n : Nat) (L : List Nat),
      alistGet api.pool rid = some rs →
      alistGet rs.cache (keyBuilder a.query a.params a.header) = some (successEntry D t1) →
      a.method = "get" → (!a.auth && rs.cfg.authRequired) = false →
      isInvalidRequest a.params = false → rs.cfg.timeUntilStale ≤ now →
      ∃ rs2, alistGet (setAuthHeader api h).pool rid = some rs2 ∧
        resourceGet rs.cfg a now { cache := rs2.cache, nextId := n, fetches := L } =
          .ok ({ status := .STALE, data := D, error := .undef, promise := .pending n },
            { cache := alistSet rs2.cache (keyBuilder a.query a.params a.header)
                (placeholderEntry (.pending n) D),
              nextId := n + 1, fetches := L ++ [n] })) := by
  have hpool : ∀ rid, alistGet (setAuthHeader api h).pool rid =
      (alistGet api.pool rid).map (fun rs => { rs with cache := invalidateCache rs.cache }) := by
    intro rid
    have hs : (setAuthHeader api h).pool =
        alistMapVals (fun rs => { rs with cache := invalidateCache rs.cache }) api.pool := rfl
    rw [hs]
    exact alistGet_mapVals _ api.pool rid
  have hpool2 : ∀ rid, alistGet (unsetAuthHeader api).pool rid =
      (alistGet api.pool rid).map (fun rs => { rs with cache := invalidateCache rs.cache }) := by
    intro rid
    have hs : (unsetAuthHeader api).pool =
        alistMapVals (fun rs => { rs with cache := invalidateCache rs.cache }) api.pool := rfl
    rw [hs]
    exact alistGet_mapVals _ api.pool rid
  refine ⟨⟨rfl, rfl⟩, fun rid => ⟨hpool rid, hpool2 rid⟩, ?_, ?_⟩
  · intro rid rs hget
    refine ⟨{ rs with cache := invalidateCache rs.cache },
      by rw [hpool rid, hget]; rfl, rfl, ?_, ?_, ?_⟩
    · intro k
      exact invalidateCache_get _ _
    · intro k
      rw [invalidateCache_get]
      cases alistGet rs.cache k <;> simp [stampIfTimestamped_dataVal]
    · intro k
      rw [invalidateCache_get]
      cases alistGet rs.cache k <;> rfl
  · intro rid rs D t1 a now n L hget hke hm hauth hinv hnow
    refine ⟨{ rs with cache := invalidateCache rs.cache },
      by rw [hpool rid, hget]; rfl, ?_⟩
    have hent2 : alistGet (invalidateCache rs.cache)
        (keyBuilder a.query a.params a.header) = some (successEntry D 0) := by
      rw [invalidateCache_get, hke]
      rfl
    have hage : ageLt now (some 0) rs.cfg.timeUntilStale = false := by
      simp only [ageLt, decide_eq_false_iff_not]
      push_cast
      omega
    unfold resourceGet
    simp [hm, hauth, hinv, hent2, successEntry, entryData, hage, makeFetch,
      placeholderEntry]

/-- Claim C8 witness: one resource with a successful entry fetched at time
500; after setAuthHeader, a read at time 60000 observes STALE with the old
data and one new fetch. -/
theorem claim_C8_amended_witness :
    (setAuthHeader c8wapi [("Authorization", .str "tok")]).events =
      c8wapi.events ++ [ChangeEvent.noArg] ∧
    (∃ rs2, alistGet (setAuthHeader c8wapi [("Authorization", .str "tok")]).pool "USER" =
        some rs2 ∧
      resourceGet { model := .obj [], timeUntilStale := 60000, authRequired := false }
          { method := "get", params := .obj [("username", .str "dase")], query := .undef,
            header := .obj [], forceRefresh := false, auth := true }
          60000 { cache := rs2.cache, nextId := 9, fetches := [] } =
        .ok ({ status := .STALE, data := .obj [("name", .str "Peter")], error := .undef,
               promise := .pending 9 },
          { cache := alistSet rs2.cache
              (keyBuilder .undef (.obj [("username", .str "dase")]) (.obj []))
              (placeholderEntry (.pending 9) (.obj [("name", .str "Peter")])),
            nextId := 10, fetches := [9] })) := by
  have h := claim_C8_amended c8wapi [("Authorization", .str "tok")]
  refine ⟨h.1.1, ?_⟩
  exact h.2.2.2 "USER"
    { cfg := { model := .obj [], timeUntilStale := 60000, authRequired := false },
      cache := [(keyBuilder .undef (.obj [("username", .str "dase")]) (.obj []),
                 successEntry (.obj [("name", .str "Peter")]) 500)] }
    (.obj [("name", .str "Peter")]) 500
    { method := "get", params := .obj [("username", .str "dase")], query := .undef,
      header := .obj [], forceRefresh := false, auth := true }
    60000 9 [] rfl rfl rfl rfl rfl (by decide)

/-- Claim C9 as amended: a query call raises past its own boundary only
for an unregistered resource id, where it throws synchronously; every
other outcome, including an unsupported verb (whose internal throw is
caught and surfaces as a null result), returns normally. -/
theorem claim_C9_amended (api : ApiState) (id : String) (req : QueryReq) (now : Nat) :
    (alistGet api.pool id = none →
      queryResource api id req now = .error "Resource was never initialized.") ∧
    (∀ rs, alistGet api.pool id = some rs → ∃ r, queryResource api id req now = .ok r) := by
  constructor
  · intro hnone
    unfold queryResource
    rw [hnone]
  · intro rs hsome
    unfold queryResource
    rcases hres : resourceGet rs.cfg
        { method := jsToLowerCase req.method, params := req.params, query := req.query,
          header := req.header, forceRefresh := req.forceRefresh,
          auth := isAuthenticated api } now
        { cache := rs.cache, nextId := api.nextId, fetches := api.calls } with e | pr
    · exact ⟨(none, api), by simp only [hsome, hres]⟩
    · obtain ⟨p, stt⟩ := pr
      refine ⟨(some p,
        { api with
          pool := alistModify api.pool id (fun r => { r with cache := stt.cache }),
          nextId := stt.nextId,
          calls := stt.fetches }), ?_⟩
      simp only [hsome, hres]

/-- Claim C9 witness: the unregistered id NOPE throws; the registered id
USER with an unsupported verb still returns. -/
theorem claim_C9_amended_witness :
    queryResource c9api "NOPE" c9req 0 = .error "Resource was never initialized." ∧
    (∃ r, queryResource c9api "USER" c9req 0 = .ok r) :=
  ⟨(claim_C9_amended c9api "NOPE" c9req 0).1 rfl,
   (claim_C9_amended c9api "USER" c9req 0).2
     { cfg := { model := .obj [], timeUntilStale := 60000, authRequired := false },
       cache := [] } rfl⟩

/-- Claim C10 as amended: for a registered resource with authRequired set
and an empty authentication header, a query using any supported method
returns synchronously a Payload with status ERROR, the default model as
data, no error value, and a future already fulfilled with the default
model; no network call is made and no cache is changed.  For an
unsupported method the call instead returns null. -/
theorem claim_C10_amended (api : ApiState) (id : String) (req : QueryReq) (now : Nat)
    (rs : ResourceState)
    (hr : alistGet api.pool id = some rs)
    (hauth : rs.cfg.authRequired = true)
    (hhdr : api.authHeader = [])
    (hm : jsToLowerCase req.method = "get" ∨ jsToLowerCase req.method = "post" ∨
          jsToLowerCase req.method = "put" ∨ jsToLowerCase req.method = "delete") :
    ∃ api2, queryResource api id req now =
        .ok (some { status := .ERROR, data := rs.cfg.model, error := .undef,
                    promise := .resolved rs.cfg.model }, api2) ∧
      (∀ rid, alistGet api2.pool rid = alistGet api.pool rid) ∧
      api2.calls = api.calls ∧ api2.nextId = api.nextId ∧
      api2.events = api.events ∧ api2.authHeader = api.authHeader := by
  have hia : isAuthenticated api = false := by
    simp [isAuthenticated, hhdr]
  have hres : resourceGet rs.cfg
      { method := jsToLowerCase req.method, params := req.params, query := req.query,
        header := req.header, forceRefresh := req.forceRefresh,
        auth := isAuthenticated api } now
      { cache := rs.cache, nextId := api.nextId, fetches := api.calls } =
      .ok ({ status := .ERROR, data := rs.cfg.model, error := .undef,
             promise := .resolved rs.cfg.model },
           { cache := rs.cache, nextId := api.nextId, fetches := api.calls }) := by
    unfold resourceGet
    simp [hm, hia, hauth]
  refine ⟨{ api with
      pool := alistModify api.pool id (fun r => { r with cache := rs.cache }),
      nextId := api.nextId, calls := api.calls }, ?_, ?_, rfl, rfl, rfl, rfl⟩
  · unfold queryResource
    simp only [hr, hres]
  · intro rid
    rw [show ({ api with
          pool := alistModify api.pool id (fun r => { r with cache := rs.cache }),
          nextId := api.nextId, calls := api.calls } : ApiState).pool =
        alistModify api.pool id (fun r => { r with cache := rs.cache }) from rfl]
    rw [alistGet_modify]
    by_cases hrid : rid = id
    · subst hrid
      rw [if_pos rfl, hr]
      rfl
    · rw [if_neg hrid]

/-- Claim C10 witness: the SECURE resource with no auth header, queried
with the supported verb get. -/
theorem claim_C10_amended_witness :
    ∃ api2, queryResource c10api "SECURE"
        { method := "get", params := .obj [("username", .str "dase")], query := .undef,
          header := .obj [], forceRefresh := false } 0 =
        .ok (some { status := .ERROR, data := .obj [], error := .undef,
                    promise := .resolved (.obj []) }, api2) ∧
      (∀ rid, alistGet api2.pool rid = alistGet c10api.pool rid) ∧
      api2.calls = c10api.calls ∧ api2.nextId = c10api.nextId ∧
      api2.events = c10api.events ∧ api2.authHeader = c10api.authHeader :=
  claim_C10_amended c10api "SECURE"
    { method := "get", params := .obj [("username", .str "dase")], query := .undef,
      header := .obj [], forceRefresh := false } 0
    { cfg := { model := .obj [], timeUntilStale := 60000, authRequired := true },
      cache := [] }
    rfl rfl rfl (Or.inl rfl)

end Vaska
